import Mathlib

/-!
Verification of the cross-section aligner (`alignCrossSections.py`).

The file shallowly embeds the algorithmic core of the program:

* generation of the threshold-offset grids (`tresholdRange`, mirroring
  the Python `range`-based construction at lines 223-230 of the source);
* the nested first-fit search over the grid of threshold offsets
  (`innerLoop` / `outerLoop` / `processPair`, mirroring lines 263-298);
  the call to `alignImages` is abstracted as an oracle
  `Int → Int → Option AlignOut`, where `none` models the OpenCV call
  raising an exception (caught by the per-file `except` clause);
* the match sorting and fixed-fraction truncation of `alignImages`
  (lines 364-370), over an explicit `Match` structure;
* a mutual-best-match model of the ORB/BFMatcher feature-matching stage
  (external OpenCV behaviour, modelled from the spec where noted);
* the per-file driver loop with its mutable state: file counter,
  output-directory string, log records, progress updates and written
  output files (lines 255-302), and the run-level log content with its
  embedded timestamps (lines 188-252 and 300-302).
-/

namespace CrossSectionAligner

/-! ## Python `range` semantics -/

/-- Length of the Python sequence `range(start, stop, step)`: CPython computes
`max(0, (stop - start + step - 1) // step)` for a positive step and
`max(0, (start - stop - step - 1) // (-step))` for a negative step, with
floor division (which `Int` division `/` implements for a positive divisor). -/
def pyRangeLen (start stop step : Int) : Nat :=
  if 0 < step then ((stop - start + step - 1) / step).toNat
  else if step < 0 then ((start - stop + (-step) - 1) / (-step)).toNat
  else 0

/-- The Python sequence `range(start, stop, step)` as a list of integers. -/
def pyRange (start stop step : Int) : List Int :=
  (List.range (pyRangeLen start stop step)).map (fun (k : Nat) => start + (k : Int) * step)

/-! ## Threshold-offset grid generation (source lines 223-230) -/

/-- `tresholdMaxChangeReferenceImages = np.minimum(255 - treshold, tresholdMaxChange)`. -/
def tresholdMaxChangeFor (treshold tresholdMaxChange : Int) : Int :=
  min (255 - treshold) tresholdMaxChange

/-- `tresholdMaxDecreaseReferenceImages = np.minimum(treshold, tresholdMaxChange)`. -/
def tresholdMaxDecreaseFor (treshold tresholdMaxChange : Int) : Int :=
  min treshold tresholdMaxChange

/-- The offset sequence
`[*range(0, maxChange, steps), *range(-steps, -maxDecrease, -steps)]`
built by the source for a base threshold (source lines 229-230). -/
def tresholdRange (treshold tresholdChangeSteps tresholdMaxChange : Int) : List Int :=
  pyRange 0 (tresholdMaxChangeFor treshold tresholdMaxChange) tresholdChangeSteps ++
    pyRange (-tresholdChangeSteps) (-(tresholdMaxDecreaseFor treshold tresholdMaxChange))
      (-tresholdChangeSteps)

/-! ## The threshold-search controller (source lines 263-298) -/

/-- A cell of the search grid: (reference offset, target offset). -/
abbrev Cell := Int × Int

/-- The values computed by one `alignImages` call that the driver consumes:
scale factor, rotation angle, and the two produced images (abstracted as
opaque tokens, since their pixel content is OpenCV-computed). -/
structure AlignOut where
  scaleFactor : ℚ
  rotationAngle : ℚ
  transformedImage : Nat
  overlayImage : Nat
deriving DecidableEq

/-- The chained comparison `scaleFactorBoundaries[0] <= scaleFactor <= scaleFactorBoundaries[1]`. -/
def inBounds (low high sf : ℚ) : Bool :=
  decide (low ≤ sf) && decide (sf ≤ high)

/-- The inner loop `for j in tresholdRangeTargetImages` (source lines 270-276):
the body runs only while the current scale factor is out of bounds; a `none`
from the oracle models `alignImages` raising an exception, which propagates
out of the loop.  The result carries the final scale factor, the most recent
`alignImages` output, and the list of attempted cells in order. -/
def innerLoop (low high : ℚ) (f : Int → Int → Option AlignOut) (i : Int) :
    ℚ → Option AlignOut → List Int → Except (List Cell) (ℚ × Option AlignOut × List Cell)
  | sf, last, [] => .ok (sf, last, [])
  | sf, last, j :: rest =>
    if inBounds low high sf then innerLoop low high f i sf last rest
    else
      match f i j with
      | none => .error [(i, j)]
      | some out =>
        if inBounds low high out.scaleFactor then
          .ok (out.scaleFactor, some out, [(i, j)])
        else
          match innerLoop low high f i out.scaleFactor (some out) rest with
          | .ok (sf', l', as) => .ok (sf', l', (i, j) :: as)
          | .error as => .error ((i, j) :: as)

/-- The outer loop `for i in tresholdRangeReferenceImages` (source lines 269-278):
after each inner loop the scale factor is re-checked and the loop breaks on
acceptance. -/
def outerLoop (low high : ℚ) (f : Int → Int → Option AlignOut) (tgtRange : List Int) :
    ℚ → Option AlignOut → List Int → Except (List Cell) (ℚ × Option AlignOut × List Cell)
  | sf, last, [] => .ok (sf, last, [])
  | sf, last, i :: rest =>
    match innerLoop low high f i sf last tgtRange with
    | .error as => .error as
    | .ok (sf', l', as) =>
      if inBounds low high sf' then .ok (sf', l', as)
      else
        match outerLoop low high f tgtRange sf' l' rest with
        | .ok (sf'', l'', as') => .ok (sf'', l'', as ++ as')
        | .error as' => .error (as ++ as')

/-- Outcome of processing one reference/target image pair. -/
inductive PairOutcome where
  | success (out : AlignOut) (cell : Cell) (attempted : List Cell)
  | unsuccessful (attempted : List Cell)
  | error (attempted : List Cell)
deriving DecidableEq

/-- The cells at which `alignImages` was invoked during the pair's search. -/
def PairOutcome.attempts : PairOutcome → List Cell
  | .success _ _ as => as
  | .unsuccessful as => as
  | .error as => as

/-- One pair's `try` block (source lines 263-298): the scale factor starts at
`-1`, the nested loops run, and afterwards the scale factor decides between
the success branch and the `alignment unsuccesful` branch; an exception is
caught by the `except` clause at the pair boundary.  The degenerate situation
where the success branch runs with no attempt ever made (possible only when
`-1` already lies inside the boundaries) raises a `NameError` on the unbound
`transformedImage` in the source, hence maps to the error outcome. -/
def processPair (low high : ℚ) (f : Int → Int → Option AlignOut)
    (refRange tgtRange : List Int) : PairOutcome :=
  match outerLoop low high f tgtRange (-1) none refRange with
  | .error as => .error as
  | .ok (sf, last, as) =>
    if inBounds low high sf then
      match last, as.getLast? with
      | some out, some cell => .success out cell as
      | _, _ => .error as
    else .unsuccessful as

/-- The full grid in iteration order: reference offsets outer, target offsets inner. -/
def gridOf (refRange tgtRange : List Int) : List Cell :=
  refRange.flatMap fun i => tgtRange.map fun j => (i, j)

/-- A cell stops the search: either the oracle raises there (`none`), or the
estimated scale factor lies within the boundaries. -/
def cellStops (low high : ℚ) (f : Int → Int → Option AlignOut) (p : Cell) : Bool :=
  match f p.1 p.2 with
  | none => true
  | some out => inBounds low high out.scaleFactor

/-! ## Feature matching and truncation (source lines 359-370) -/

/-- One descriptor match, as produced by `matcher.match`: indices into the two
keypoint arrays plus a distance score. -/
structure Match where
  queryIdx : Nat
  trainIdx : Nat
  dist : ℚ
deriving DecidableEq

/-- Comparison used by `matches.sort(key = lambda x: x.distance)`. -/
def matchLe (a b : Match) : Bool := decide (a.dist ≤ b.dist)

/-- `matches.sort(key = lambda x: x.distance)` (source line 367). -/
def sortMatches (ms : List Match) : List Match := ms.mergeSort matchLe

/-- `matches[:int(len(matches)*0.9)]` (source line 370).  For every list
length realisable here (ORB is capped at 5000 keypoints) the float expression
`int(len(matches)*0.9)` equals `9 * len / 10` in integer arithmetic. -/
def keepBestMatches (ms : List Match) : List Match := ms.take (9 * ms.length / 10)

/-- The sort-then-truncate step applied to the raw matches. -/
def sortAndTruncate (ms : List Match) : List Match := keepBestMatches (sortMatches ms)

/-! ## Mutual-best-match model of the matcher and the estimator front end.
The keypoint detection and descriptor matching are performed by OpenCV
(`cv2.ORB_create(5000)`, `cv2.BFMatcher(cv2.NORM_HAMMING, crossCheck=True)`),
whose code is not part of this repository; they are modelled here following
the spec's FeatureMatcher / TransformEstimator contracts. -/

/-- A binary (ORB-style) descriptor. -/
abbrev Descriptor := List Bool

/-- Hamming distance between two binary descriptors. -/
def hamming : List Bool → List Bool → Nat
  | [], _ => 0
  | _ :: _, [] => 0
  | a :: as, b :: bs => (if a = b then 0 else 1) + hamming as bs

/-- Index (and distance) of the nearest neighbour of `d` among `ds`
(first minimum on ties), `none` when `ds` is empty. -/
def bestIdx (d : Descriptor) (ds : List Descriptor) : Option (Nat × Nat) :=
  (ds.enum.map fun je => (je.1, hamming d je.2)).foldl
    (fun acc p =>
      match acc with
      | none => some p
      | some q => if p.2 < q.2 then some p else some q)
    none

/-- Modelled from the spec: the `BFMatcher` cross-check matcher (spec 4.2),
whose implementation is OpenCV code outside this repository.  A pair is kept
only when each descriptor is the other's nearest neighbour. -/
def crossMatch (ds1 ds2 : List Descriptor) : List Match :=
  ds1.enum.filterMap fun id1 =>
    match bestIdx id1.2 ds2 with
    | none => none
    | some (j, d12) =>
      match ds2.get? j with
      | none => none
      | some d2 =>
        match bestIdx d2 ds1 with
        | none => none
        | some (i', _) => if i' = id1.1 then some ⟨id1.1, j, (d12 : ℚ)⟩ else none

/-- A 2×3 affine matrix, as returned by `cv2.estimateAffinePartial2D`. -/
structure RigidTransform where
  m00 : ℚ
  m01 : ℚ
  m02 : ℚ
  m10 : ℚ
  m11 : ℚ
  m12 : ℚ
deriving DecidableEq

/-- Modelled from the spec: the robust similarity estimator (spec 4.3), whose
implementation is OpenCV code outside this repository; with fewer than 3
correspondences the result is `invalid` (`none`); otherwise the abstract
fitting function `fit` supplies the matrix. -/
def estimateSimilarity (fit : List ((ℚ × ℚ) × (ℚ × ℚ)) → RigidTransform)
    (pts : List ((ℚ × ℚ) × (ℚ × ℚ))) : Option RigidTransform :=
  if pts.length < 3 then none else some (fit pts)

/-- The keypoint-coordinate pairs gathered from the retained matches
(source lines 373-374). -/
def matchedPoints (keyPoints1 keyPoints2 : List (ℚ × ℚ)) (ms : List Match) :
    List ((ℚ × ℚ) × (ℚ × ℚ)) :=
  ms.filterMap fun mt =>
    match keyPoints1.get? mt.queryIdx, keyPoints2.get? mt.trainIdx with
    | some p, some q => some (p, q)
    | _, _ => none

/-- The matching-and-estimation front end of `alignImages`: raw mutual-best
matches, sorted and truncated, converted to point pairs and fed to the
similarity estimator. -/
def matchPipeline (keyPoints1 keyPoints2 : List (ℚ × ℚ)) (ds1 ds2 : List Descriptor)
    (fit : List ((ℚ × ℚ) × (ℚ × ℚ)) → RigidTransform) : Option RigidTransform :=
  estimateSimilarity fit
    (matchedPoints keyPoints1 keyPoints2 (sortAndTruncate (crossMatch ds1 ds2)))

/-! ## The per-file driver loop (source lines 255-302) -/

/-- One record written to the log file during the per-file loop. -/
inductive LogRecord where
  | success (name : String) (usedTresholdRef usedTresholdTgt : Int)
      (rotationAngle scaleFactor : ℚ)
  | unsuccessful (name : String)
  | errorAligning (name : String)
deriving DecidableEq

/-- The mutable state threaded through the per-file loop: the file counter
(line 260), the output-directory string (mutated at line 286), the log
records, the progress-bar updates `(numerator, denominator, shown name)`,
the written output files and the attempted grid cells. -/
structure LoopState where
  fileNumber : Nat
  outputDirectory : String
  log : List LogRecord
  progress : List (Nat × Nat × String)
  outputs : List String
  attempted : List Cell
deriving DecidableEq

/-- The state before the loop: `fileNumber = 0` and the initial
`updateProgress(0, "")` call of line 257. -/
def initialState (outputDirectory : String) (total : Nat) : LoopState :=
  ⟨0, outputDirectory, [], [(0, total, "")], [], []⟩

/-- One iteration of `for referenceFile in referenceFiles` (source lines
259-298).  `file.2` tells whether the identically-named target file exists
(line 262).  On success the code appends `"/"` to `outputDirectory`, writes
the aligned image (and the overlap image unless suppressed) and updates the
progress bar; on an exhausted grid it logs the unsuccessful marker and
updates the progress bar; on an exception it only logs the error (the
`updateProgress` call at line 293 sits inside the `try` and is skipped). -/
def fileStep (total : Nat) (low high : ℚ) (f : Int → Int → Option AlignOut)
    (refRange tgtRange : List Int) (tresholdReferenceImages tresholdTargetImages : Int)
    (suppressOverlapImages : Bool) (st : LoopState) (file : String × Bool) : LoopState :=
  let st1 : LoopState := { st with fileNumber := st.fileNumber + 1 }
  if file.2 then
    match processPair low high f refRange tgtRange with
    | .success out cell as =>
      let dir := st1.outputDirectory ++ "/"
      { st1 with
        outputDirectory := dir
        log := st1.log ++
          [.success file.1 (tresholdReferenceImages + cell.1) (tresholdTargetImages + cell.2)
            out.rotationAngle out.scaleFactor]
        outputs := st1.outputs ++ [dir ++ file.1] ++
          (if suppressOverlapImages then [] else [dir ++ "overlap/" ++ file.1])
        progress := st1.progress ++ [(st1.fileNumber, total, file.1)]
        attempted := st1.attempted ++ as }
    | .unsuccessful as =>
      { st1 with
        log := st1.log ++ [.unsuccessful file.1]
        progress := st1.progress ++ [(st1.fileNumber, total, file.1)]
        attempted := st1.attempted ++ as }
    | .error as =>
      { st1 with
        log := st1.log ++ [.errorAligning file.1]
        attempted := st1.attempted ++ as }
  else st1

/-- The whole per-file loop over the reference files. -/
def runFiles (low high : ℚ) (f : Int → Int → Option AlignOut) (refRange tgtRange : List Int)
    (tresholdReferenceImages tresholdTargetImages : Int) (suppressOverlapImages : Bool)
    (outputDirectory : String) (files : List (String × Bool)) : LoopState :=
  files.foldl
    (fileStep files.length low high f refRange tgtRange tresholdReferenceImages
      tresholdTargetImages suppressOverlapImages)
    (initialState outputDirectory files.length)

/-! ## Run-level log content (source lines 188-252 and 300-302) -/

/-- The configuration and environment strings echoed into the log header. -/
structure RunConfig where
  invocation : String
  workingDirectory : String
  referenceFilesDirectory : String
  targetFilesDirectory : String
  outputDirectory : String
  tresholdReferenceImages : Int
  tresholdTargetImages : Int
  tresholdChangeSteps : Int
  tresholdMaxChange : Int
  scaleFactorLow : ℚ
  scaleFactorHigh : ℚ
  suppressOverlapImages : Bool
  pythonVersion : String
  opencvPythonVersion : String
  numPyVersion : String
deriving DecidableEq

/-- The log-file name (source line 190): it embeds the start-of-run clock
reading `datetime.now().strftime("%Y_%m_%d %H_%M_%S")`.  The base name of the
target directory is taken as given. -/
def logFileName (cfg : RunConfig) (startTime : String) : String :=
  cfg.targetFilesDirectory ++ "_Log " ++ startTime ++ ".txt"

/-- The content of the log file: the header fields of lines 236-250 (which
embed the start timestamp), the per-file records, and the `Finished`
timestamp of line 301. -/
structure LogContent where
  invocation : String
  workingDirectory : String
  referenceFilesDirectory : String
  targetFilesDirectory : String
  outputDirectory : String
  logfileLocation : String
  tresholdReferenceImages : Int
  tresholdTargetImages : Int
  tresholdRangeReferenceImages : List Int
  tresholdRangeTargetImages : List Int
  scaleFactorBoundaries : ℚ × ℚ
  pythonVersion : String
  opencvPythonVersion : String
  numPyVersion : String
  startTime : String
  records : List LogRecord
  finishTime : String
deriving DecidableEq

/-- Assembles the log content of one run from the configuration, the per-file
records, and the two clock readings taken at lines 250 and 301. -/
def buildLog (cfg : RunConfig) (records : List LogRecord) (startTime finishTime : String) :
    LogContent :=
  { invocation := cfg.invocation
    workingDirectory := cfg.workingDirectory
    referenceFilesDirectory := cfg.referenceFilesDirectory
    targetFilesDirectory := cfg.targetFilesDirectory
    outputDirectory := cfg.outputDirectory
    logfileLocation := logFileName cfg startTime
    tresholdReferenceImages := cfg.tresholdReferenceImages
    tresholdTargetImages := cfg.tresholdTargetImages
    tresholdRangeReferenceImages :=
      tresholdRange cfg.tresholdReferenceImages cfg.tresholdChangeSteps cfg.tresholdMaxChange
    tresholdRangeTargetImages :=
      tresholdRange cfg.tresholdTargetImages cfg.tresholdChangeSteps cfg.tresholdMaxChange
    scaleFactorBoundaries := (cfg.scaleFactorLow, cfg.scaleFactorHigh)
    pythonVersion := cfg.pythonVersion
    opencvPythonVersion := cfg.opencvPythonVersion
    numPyVersion := cfg.numPyVersion
    startTime := startTime
    records := records
    finishTime := finishTime }

/-- One complete run of the pipeline: the final loop state (outputs written,
records, attempted cells) and the log content, as functions of the inputs,
the configuration and the two clock readings. -/
def fullRun (cfg : RunConfig) (f : Int → Int → Option AlignOut)
    (files : List (String × Bool)) (startTime finishTime : String) :
    LoopState × LogContent :=
  let st := runFiles cfg.scaleFactorLow cfg.scaleFactorHigh f
    (tresholdRange cfg.tresholdReferenceImages cfg.tresholdChangeSteps cfg.tresholdMaxChange)
    (tresholdRange cfg.tresholdTargetImages cfg.tresholdChangeSteps cfg.tresholdMaxChange)
    cfg.tresholdReferenceImages cfg.tresholdTargetImages cfg.suppressOverlapImages
    cfg.outputDirectory files
  (st, buildLog cfg st.log startTime finishTime)

/-! ## Concrete instances used by counterexamples and witnesses -/

/-- An oracle whose every attempt is accepted with scale factor 1. -/
def alwaysAccept : Int → Int → Option AlignOut := fun _ _ => some ⟨1, 0, 0, 0⟩

/-- An oracle that raises at the base-threshold cell `(0, 0)` and succeeds
with scale factor 1 elsewhere. -/
def failAtOrigin : Int → Int → Option AlignOut := fun i j =>
  if i = 0 ∧ j = 0 then none else some ⟨1, 0, 0, 0⟩

/-- A total oracle whose scale factor is 2 at `(0, 0)` and 1 elsewhere. -/
def acceptSecond : Int → Int → AlignOut := fun i j =>
  if i = 0 ∧ j = 0 then ⟨2, 0, 0, 0⟩ else ⟨1, 0, 0, 0⟩

/-- A small concrete match list exercising the truncation policy. -/
def msSample : List Match := [⟨0, 0, 2⟩, ⟨1, 1, 1⟩, ⟨2, 2, 3⟩]

/-- A concrete similarity-fitting function for witnesses. -/
def fitSample : List ((ℚ × ℚ) × (ℚ × ℚ)) → RigidTransform := fun _ => ⟨1, 0, 0, 0, 1, 0⟩

/-- A concrete run configuration for the determinism counterexample. -/
def cfgSample : RunConfig :=
  ⟨"alignCrossSections.py -r ref -t tgt -x 100 -y 100", "wd", "ref", "tgt", "out",
    100, 100, 2, 20, 0, 2, false, "py", "cv", "np"⟩

/-! # Theorems -/

/-! ## Python `range` semantics -/

theorem lt_pyRangeLen_pos {k : Nat} {start stop step : Int} (hs : 0 < step) :
    k < pyRangeLen start stop step ↔ start + (k : Int) * step < stop := by
  unfold pyRangeLen
  rw [if_pos hs, Int.lt_toNat]
  constructor
  · intro h1
    have h2 := Int.add_one_le_iff.mpr h1
    rw [Int.le_ediv_iff_mul_le hs, add_one_mul] at h2
    linarith
  · intro hlt
    have h2 : (k : Int) + 1 ≤ (stop - start + step - 1) / step := by
      rw [Int.le_ediv_iff_mul_le hs, add_one_mul]
      linarith
    linarith

theorem lt_pyRangeLen_neg {k : Nat} {start stop step : Int} (hs : step < 0) :
    k < pyRangeLen start stop step ↔ stop < start + (k : Int) * step := by
  have ht : (0 : Int) < -step := by omega
  have hm : (k : Int) * (-step) = -((k : Int) * step) := by ring
  unfold pyRangeLen
  rw [if_neg (by omega), if_pos hs, Int.lt_toNat]
  constructor
  · intro h1
    have h2 := Int.add_one_le_iff.mpr h1
    rw [Int.le_ediv_iff_mul_le ht, add_one_mul] at h2
    linarith
  · intro hlt
    have h2 : (k : Int) + 1 ≤ (start - stop + (-step) - 1) / (-step) := by
      rw [Int.le_ediv_iff_mul_le ht, add_one_mul]
      linarith
    linarith

theorem mem_pyRange_pos {start stop step o : Int} (hs : 0 < step) :
    o ∈ pyRange start stop step ↔
      ∃ k : Nat, o = start + (k : Int) * step ∧ start + (k : Int) * step < stop := by
  unfold pyRange
  rw [List.mem_map]
  constructor
  · rintro ⟨k, hk, rfl⟩
    exact ⟨k, rfl, (lt_pyRangeLen_pos hs).mp (List.mem_range.mp hk)⟩
  · rintro ⟨k, rfl, hlt⟩
    exact ⟨k, List.mem_range.mpr ((lt_pyRangeLen_pos hs).mpr hlt), rfl⟩

theorem mem_pyRange_neg {start stop step o : Int} (hs : step < 0) :
    o ∈ pyRange start stop step ↔
      ∃ k : Nat, o = start + (k : Int) * step ∧ stop < start + (k : Int) * step := by
  unfold pyRange
  rw [List.mem_map]
  constructor
  · rintro ⟨k, hk, rfl⟩
    exact ⟨k, rfl, (lt_pyRangeLen_neg hs).mp (List.mem_range.mp hk)⟩
  · rintro ⟨k, rfl, hlt⟩
    exact ⟨k, List.mem_range.mpr ((lt_pyRangeLen_neg hs).mpr hlt), rfl⟩

theorem pairwise_lt_pyRange_pos (start stop step : Int) (hs : 0 < step) :
    (pyRange start stop step).Pairwise (· < ·) := by
  unfold pyRange
  rw [List.pairwise_map]
  refine List.Pairwise.imp ?_ (List.pairwise_lt_range _)
  intro a b hab
  have h1 : (a : Int) < (b : Int) := by exact_mod_cast hab
  have h2 := mul_lt_mul_of_pos_right h1 hs
  linarith

theorem pairwise_gt_pyRange_neg (start stop step : Int) (hs : step < 0) :
    (pyRange start stop step).Pairwise (· > ·) := by
  unfold pyRange
  rw [List.pairwise_map]
  refine List.Pairwise.imp ?_ (List.pairwise_lt_range _)
  intro a b hab
  have h1 : (a : Int) < (b : Int) := by exact_mod_cast hab
  have h2 := mul_lt_mul_of_neg_right h1 hs
  simp only [gt_iff_lt]
  linarith

/-! ## Characterization of the threshold search -/

theorem dropWhile_head_false {α : Type*} {p : α → Bool} {l : List α} {x : α} {r : List α}
    (h : l.dropWhile p = x :: r) : p x = false := by
  induction l with
  | nil => simp at h
  | cons a t ih =>
    rw [List.dropWhile_cons] at h
    by_cases ha : p a
    · simp [ha] at h
      exact ih h
    · simp [ha] at h
      obtain ⟨rfl, -⟩ := h
      simpa using ha

theorem head?_takeWhile_append_take_one {α : Type*} (p : α → Bool) (l : List α) :
    (l.takeWhile p ++ (l.dropWhile p).take 1).head? = l.head? := by
  cases l with
  | nil => rfl
  | cons a t =>
    rw [List.takeWhile_cons, List.dropWhile_cons]
    by_cases ha : p a
    · simp [ha]
    · simp [ha]

theorem innerLoop_cons (low high : ℚ) (f : Int → Int → Option AlignOut) (i : Int)
    (sf : ℚ) (last : Option AlignOut) (j : Int) (rest : List Int) :
    innerLoop low high f i sf last (j :: rest) =
      if inBounds low high sf then innerLoop low high f i sf last rest
      else
        match f i j with
        | none => .error [(i, j)]
        | some out =>
          if inBounds low high out.scaleFactor then
            .ok (out.scaleFactor, some out, [(i, j)])
          else
            match innerLoop low high f i out.scaleFactor (some out) rest with
            | .ok (sf', l', as) => .ok (sf', l', (i, j) :: as)
            | .error as => .error ((i, j) :: as) := rfl

/-- How one inner-loop run relates to the row of grid cells it scans: with an
unaccepted incoming scale factor, the loop attempts cells in order up to (and
including) the first stopping cell, raising there if the oracle raises and
breaking with its output if it is accepted; if no cell stops it, the whole
row is attempted and the final scale factor is still unaccepted. -/
theorem innerLoop_char (low high : ℚ) (f : Int → Int → Option AlignOut) (i : Int) :
    ∀ (tgtRange : List Int) (sf : ℚ) (last : Option AlignOut),
      inBounds low high sf = false →
      (∀ p r,
        (tgtRange.map fun j => (i, j)).dropWhile (fun q => ! cellStops low high f q) = p :: r →
        (f p.1 p.2 = none →
          innerLoop low high f i sf last tgtRange =
            .error ((tgtRange.map fun j => (i, j)).takeWhile
              (fun q => ! cellStops low high f q) ++ [p])) ∧
        (∀ out, f p.1 p.2 = some out → inBounds low high out.scaleFactor = true →
          innerLoop low high f i sf last tgtRange =
            .ok (out.scaleFactor, some out,
              (tgtRange.map fun j => (i, j)).takeWhile
                (fun q => ! cellStops low high f q) ++ [p]))) ∧
      ((tgtRange.map fun j => (i, j)).dropWhile (fun q => ! cellStops low high f q) = [] →
        ∃ sf' last',
          innerLoop low high f i sf last tgtRange =
            .ok (sf', last', tgtRange.map fun j => (i, j)) ∧
          inBounds low high sf' = false) := by
  intro tgtRange
  induction tgtRange with
  | nil =>
    intro sf last hsf
    exact ⟨fun p r h => by simp at h, fun _ => ⟨sf, last, rfl, hsf⟩⟩
  | cons j t ih =>
    intro sf last hsf
    rw [innerLoop_cons, if_neg (by simp [hsf])]
    cases hf : f i j with
    | none =>
      have hstop : cellStops low high f (i, j) = true := by simp [cellStops, hf]
      constructor
      · intro p r h'
        simp only [List.map_cons, List.dropWhile_cons, hstop, Bool.not_true, if_false,
          List.cons.injEq] at h'
        obtain ⟨rfl, rfl⟩ := h'
        constructor
        · intro _
          simp [List.takeWhile_cons, hstop]
        · intro out hout
          rw [hf] at hout
          cases hout
      · intro h''
        simp [List.dropWhile_cons, hstop] at h''
    | some out =>
      cases hacc : inBounds low high out.scaleFactor with
      | true =>
        have hstop : cellStops low high f (i, j) = true := by simp [cellStops, hf, hacc]
        constructor
        · intro p r h'
          simp only [List.map_cons, List.dropWhile_cons, hstop, Bool.not_true, if_false,
            List.cons.injEq] at h'
          obtain ⟨rfl, rfl⟩ := h'
          constructor
          · intro hnone
            rw [hf] at hnone
            cases hnone
          · intro out' hout' hacc'
            rw [hf] at hout'
            obtain rfl := (Option.some.injEq _ _).mp hout'
            simp [hf, hacc, List.takeWhile_cons, hstop]
        · intro h''
          simp [List.dropWhile_cons, hstop] at h''
      | false =>
        have hstop : cellStops low high f (i, j) = false := by simp [cellStops, hf, hacc]
        obtain ⟨ih1, ih2⟩ := ih out.scaleFactor (some out) hacc
        constructor
        · intro p r h'
          simp only [List.map_cons, List.dropWhile_cons, hstop, Bool.not_false, if_true] at h'
          refine ⟨?_, ?_⟩
          · intro hnone
            have hrec := (ih1 p r h').1 hnone
            simp [hf, hacc, hrec, List.takeWhile_cons, hstop]
          · intro out' hout' hacc'
            have hrec := (ih1 p r h').2 out' hout' hacc'
            simp [hf, hacc, hrec, List.takeWhile_cons, hstop]
        · intro h''
          simp only [List.map_cons, List.dropWhile_cons, hstop, Bool.not_false, if_true] at h''
          obtain ⟨sf', last', hrec, hsf'⟩ := ih2 h''
          exact ⟨sf', last', by simp [hf, hacc, hrec], hsf'⟩

theorem outerLoop_cons (low high : ℚ) (f : Int → Int → Option AlignOut) (tgtRange : List Int)
    (sf : ℚ) (last : Option AlignOut) (i : Int) (rest : List Int) :
    outerLoop low high f tgtRange sf last (i :: rest) =
      match innerLoop low high f i sf last tgtRange with
      | .error as => .error as
      | .ok (sf', l', as) =>
        if inBounds low high sf' then .ok (sf', l', as)
        else
          match outerLoop low high f tgtRange sf' l' rest with
          | .ok (sf'', l'', as') => .ok (sf'', l'', as ++ as')
          | .error as' => .error (as ++ as') := rfl

/-- How the whole nested loop relates to the grid in iteration order: with an
unaccepted incoming scale factor, cells are attempted in grid order up to (and
including) the first stopping cell; when no cell stops the search, the whole
grid is attempted and the final scale factor is still unaccepted. -/
theorem outerLoop_char (low high : ℚ) (f : Int → Int → Option AlignOut) (tgtRange : List Int) :
    ∀ (refRange : List Int) (sf : ℚ) (last : Option AlignOut),
      inBounds low high sf = false →
      (∀ p r,
        (gridOf refRange tgtRange).dropWhile (fun q => ! cellStops low high f q) = p :: r →
        (f p.1 p.2 = none →
          outerLoop low high f tgtRange sf last refRange =
            .error ((gridOf refRange tgtRange).takeWhile
              (fun q => ! cellStops low high f q) ++ [p])) ∧
        (∀ out, f p.1 p.2 = some out → inBounds low high out.scaleFactor = true →
          outerLoop low high f tgtRange sf last refRange =
            .ok (out.scaleFactor, some out,
              (gridOf refRange tgtRange).takeWhile
                (fun q => ! cellStops low high f q) ++ [p]))) ∧
      ((gridOf refRange tgtRange).dropWhile (fun q => ! cellStops low high f q) = [] →
        ∃ sf' last',
          outerLoop low high f tgtRange sf last refRange =
            .ok (sf', last', gridOf refRange tgtRange) ∧
          inBounds low high sf' = false) := by
  intro refRange
  induction refRange with
  | nil =>
    intro sf last hsf
    exact ⟨fun p r h => by simp [gridOf] at h, fun _ => ⟨sf, last, rfl, hsf⟩⟩
  | cons i t ih =>
    intro sf last hsf
    have hgrid : gridOf (i :: t) tgtRange
        = (tgtRange.map fun j => (i, j)) ++ gridOf t tgtRange := by
      simp [gridOf]
    obtain ⟨in1, in2⟩ := innerLoop_char low high f i tgtRange sf last hsf
    cases hd : (tgtRange.map fun j => (i, j)).dropWhile (fun q => ! cellStops low high f q) with
    | nil =>
      obtain ⟨sf', last', hrec, hsf'⟩ := in2 hd
      have hrowtake : (tgtRange.map fun j => (i, j)).takeWhile
          (fun q => ! cellStops low high f q) = tgtRange.map fun j => (i, j) := by
        have h0 := List.takeWhile_append_dropWhile
          (fun q => ! cellStops low high f q) (tgtRange.map fun j => (i, j))
        rw [hd, List.append_nil] at h0
        exact h0
      have htake : (gridOf (i :: t) tgtRange).takeWhile (fun q => ! cellStops low high f q)
          = (tgtRange.map fun j => (i, j)) ++
            (gridOf t tgtRange).takeWhile (fun q => ! cellStops low high f q) := by
        rw [hgrid, List.takeWhile_append, if_pos (by rw [hrowtake])]
      have hdropapp : (gridOf (i :: t) tgtRange).dropWhile (fun q => ! cellStops low high f q)
          = (gridOf t tgtRange).dropWhile (fun q => ! cellStops low high f q) := by
        rw [hgrid, List.dropWhile_append, hd]
        simp
      obtain ⟨ihs1, ihs2⟩ := ih sf' last' hsf'
      constructor
      · intro p r h'
        rw [hdropapp] at h'
        constructor
        · intro hnone
          have hx := (ihs1 p r h').1 hnone
          rw [outerLoop_cons, hrec]
          simp only [hsf', Bool.false_eq_true, if_false, hx, htake, List.append_assoc]
        · intro out hout hacc
          have hx := (ihs1 p r h').2 out hout hacc
          rw [outerLoop_cons, hrec]
          simp only [hsf', Bool.false_eq_true, if_false, hx, htake, List.append_assoc]
      · intro h''
        rw [hdropapp] at h''
        obtain ⟨sf'', last'', hrec2, hsf''⟩ := ihs2 h''
        refine ⟨sf'', last'', ?_, hsf''⟩
        rw [outerLoop_cons, hrec]
        simp only [hsf', Bool.false_eq_true, if_false, hrec2, hgrid]
    | cons p0 r0 =>
      have hlen : ¬ ((tgtRange.map fun j => (i, j)).takeWhile
          (fun q => ! cellStops low high f q)).length = (tgtRange.map fun j => (i, j)).length := by
        have h0 := congrArg List.length (List.takeWhile_append_dropWhile
          (fun q => ! cellStops low high f q) (tgtRange.map fun j => (i, j)))
        rw [List.length_append, hd] at h0
        simp only [List.length_cons] at h0
        omega
      have htake : (gridOf (i :: t) tgtRange).takeWhile (fun q => ! cellStops low high f q)
          = (tgtRange.map fun j => (i, j)).takeWhile (fun q => ! cellStops low high f q) := by
        rw [hgrid, List.takeWhile_append, if_neg hlen]
      have hdropapp : (gridOf (i :: t) tgtRange).dropWhile (fun q => ! cellStops low high f q)
          = p0 :: (r0 ++ gridOf t tgtRange) := by
        rw [hgrid, List.dropWhile_append, hd]
        simp
      constructor
      · intro p r h'
        rw [hdropapp] at h'
        injection h' with h1 h2
        subst h1
        constructor
        · intro hnone
          have hx := (in1 p0 r0 hd).1 hnone
          rw [outerLoop_cons, hx, htake]
        · intro out hout hacc
          have hx := (in1 p0 r0 hd).2 out hout hacc
          rw [outerLoop_cons, hx, htake]
          simp only [hacc, if_true]
      · intro h''
        rw [hdropapp] at h''
        cases h''

/-- The boundary check of line 132 guarantees `low ≥ 0`, so the initial scale
factor `-1` of line 263 is never accepted. -/
theorem inBounds_neg_one {low high : ℚ} (hlow : 0 ≤ low) : inBounds low high (-1) = false := by
  have h : ¬ (low ≤ (-1 : ℚ)) := by intro h; linarith
  simp [inBounds, h]

theorem processPair_error_char (low high : ℚ) (f : Int → Int → Option AlignOut)
    (refRange tgtRange : List Int) (h0 : inBounds low high (-1) = false)
    (p : Cell) (r : List Cell)
    (hdrop : (gridOf refRange tgtRange).dropWhile (fun q => ! cellStops low high f q) = p :: r)
    (hfail : f p.1 p.2 = none) :
    processPair low high f refRange tgtRange =
      .error ((gridOf refRange tgtRange).takeWhile (fun q => ! cellStops low high f q) ++ [p]) := by
  have hx := ((outerLoop_char low high f tgtRange refRange (-1) none h0).1 p r hdrop).1 hfail
  unfold processPair
  rw [hx]

theorem processPair_success_char (low high : ℚ) (f : Int → Int → Option AlignOut)
    (refRange tgtRange : List Int) (h0 : inBounds low high (-1) = false)
    (p : Cell) (r : List Cell) (out : AlignOut)
    (hdrop : (gridOf refRange tgtRange).dropWhile (fun q => ! cellStops low high f q) = p :: r)
    (hfit : f p.1 p.2 = some out) (hacc : inBounds low high out.scaleFactor = true) :
    processPair low high f refRange tgtRange =
      .success out p
        ((gridOf refRange tgtRange).takeWhile (fun q => ! cellStops low high f q) ++ [p]) := by
  have hx := ((outerLoop_char low high f tgtRange refRange (-1) none h0).1 p r hdrop).2
    out hfit hacc
  unfold processPair
  rw [hx]
  simp [hacc, List.getLast?_concat]

theorem processPair_exhausted_char (low high : ℚ) (f : Int → Int → Option AlignOut)
    (refRange tgtRange : List Int) (h0 : inBounds low high (-1) = false)
    (hdrop : (gridOf refRange tgtRange).dropWhile (fun q => ! cellStops low high f q) = []) :
    processPair low high f refRange tgtRange = .unsuccessful (gridOf refRange tgtRange) := by
  obtain ⟨sf', last', hrec, hsf'⟩ :=
    (outerLoop_char low high f tgtRange refRange (-1) none h0).2 hdrop
  unfold processPair
  rw [hrec]
  simp [hsf']

/-- In every outcome, the attempted cells are the non-stopping grid cells in
iteration order followed by the first stopping cell (when one exists). -/
theorem processPair_attempts (low high : ℚ) (f : Int → Int → Option AlignOut)
    (refRange tgtRange : List Int) (h0 : inBounds low high (-1) = false) :
    (processPair low high f refRange tgtRange).attempts =
      (gridOf refRange tgtRange).takeWhile (fun q => ! cellStops low high f q) ++
        ((gridOf refRange tgtRange).dropWhile (fun q => ! cellStops low high f q)).take 1 := by
  cases hd : (gridOf refRange tgtRange).dropWhile (fun q => ! cellStops low high f q) with
  | nil =>
    rw [processPair_exhausted_char low high f refRange tgtRange h0 hd]
    have h1 := List.takeWhile_append_dropWhile
      (fun q => ! cellStops low high f q) (gridOf refRange tgtRange)
    rw [hd, List.append_nil] at h1
    simp [PairOutcome.attempts, h1]
  | cons p r =>
    have hps : cellStops low high f p = true := by
      have h1 := dropWhile_head_false hd
      simpa using h1
    cases hf : f p.1 p.2 with
    | none =>
      rw [processPair_error_char low high f refRange tgtRange h0 p r hd hf]
      simp [PairOutcome.attempts]
    | some out =>
      have hacc : inBounds low high out.scaleFactor = true := by
        simp only [cellStops, hf] at hps
        exact hps
      rw [processPair_success_char low high f refRange tgtRange h0 p r out hd hf hacc]
      simp [PairOutcome.attempts]

/-- The first attempted cell (if any cell is attempted at all) is the head of
the grid. -/
theorem processPair_attempts_head (low high : ℚ) (f : Int → Int → Option AlignOut)
    (refRange tgtRange : List Int) (h0 : inBounds low high (-1) = false) :
    (processPair low high f refRange tgtRange).attempts.head? =
      (gridOf refRange tgtRange).head? := by
  rw [processPair_attempts low high f refRange tgtRange h0, head?_takeWhile_append_take_one]

theorem gridOf_head {a b : Int} {refRange tgtRange : List Int}
    (h1 : refRange.head? = some a) (h2 : tgtRange.head? = some b) :
    (gridOf refRange tgtRange).head? = some (a, b) := by
  cases refRange with
  | nil => simp at h1
  | cons x xs =>
    cases tgtRange with
    | nil => simp at h2
    | cons y ys =>
      simp only [List.head?_cons, Option.some.injEq] at h1 h2
      subst h1
      subst h2
      simp [gridOf]

theorem head?_pyRange_pos {start stop step : Int} (h : start < stop) (hs : 0 < step) :
    (pyRange start stop step).head? = some start := by
  have h0 : 0 < pyRangeLen start stop step := by
    rw [@lt_pyRangeLen_pos 0 start stop step hs]
    simpa using h
  obtain ⟨n, hn⟩ := Nat.exists_eq_succ_of_ne_zero h0.ne'
  unfold pyRange
  rw [hn, List.range_succ_eq_map]
  simp

theorem tresholdRange_head {b s m : Int} (hb : b < 255) (hs : 0 < s) (hm : 0 < m) :
    (tresholdRange b s m).head? = some 0 := by
  have h1 : (pyRange 0 (tresholdMaxChangeFor b m) s).head? = some 0 :=
    head?_pyRange_pos (by simp only [tresholdMaxChangeFor]; omega) hs
  unfold tresholdRange
  cases hE : pyRange 0 (tresholdMaxChangeFor b m) s with
  | nil => rw [hE] at h1; simp at h1
  | cons x xs =>
    rw [hE] at h1
    simp only [List.head?_cons, Option.some.injEq] at h1
    subst h1
    simp

/-! ## C1: first-fit search -/

/-- C1: for every reference/target pair (run with a total estimation oracle
`g`), the controller attempts grid cells in iteration order — reference
offsets outer, target offsets inner, each range ascending before descending —
and the attempted cells are exactly the longest all-unaccepted grid cells
followed by the first accepted cell when one exists: the search stops at the
first accepted offset pair and no further pairs are attempted.  At that first
accepted cell the outcome is success with that cell's estimate. -/
theorem first_fit (bRef bTgt s m : Int) (low high : ℚ) (g : Int → Int → AlignOut)
    (hlow : 0 ≤ low) :
    ((processPair low high (fun i j => some (g i j))
        (tresholdRange bRef s m) (tresholdRange bTgt s m)).attempts =
      (gridOf (tresholdRange bRef s m) (tresholdRange bTgt s m)).takeWhile
          (fun q => ! inBounds low high (g q.1 q.2).scaleFactor) ++
        ((gridOf (tresholdRange bRef s m) (tresholdRange bTgt s m)).dropWhile
          (fun q => ! inBounds low high (g q.1 q.2).scaleFactor)).take 1) ∧
    ∀ p r,
      (gridOf (tresholdRange bRef s m) (tresholdRange bTgt s m)).dropWhile
        (fun q => ! inBounds low high (g q.1 q.2).scaleFactor) = p :: r →
      processPair low high (fun i j => some (g i j))
          (tresholdRange bRef s m) (tresholdRange bTgt s m) =
        .success (g p.1 p.2) p
          ((gridOf (tresholdRange bRef s m) (tresholdRange bTgt s m)).takeWhile
            (fun q => ! inBounds low high (g q.1 q.2).scaleFactor) ++ [p]) := by
  have h0 : inBounds low high (-1) = false := inBounds_neg_one hlow
  have hpred : (fun q : Cell => ! cellStops low high (fun i j => some (g i j)) q) =
      fun q : Cell => ! inBounds low high (g q.1 q.2).scaleFactor := by
    funext q
    simp [cellStops]
  constructor
  · have h := processPair_attempts low high (fun i j => some (g i j))
      (tresholdRange bRef s m) (tresholdRange bTgt s m) h0
    rw [hpred] at h
    exact h
  · intro p r hdrop
    have hdrop' : (gridOf (tresholdRange bRef s m) (tresholdRange bTgt s m)).dropWhile
        (fun q => ! cellStops low high (fun i j => some (g i j)) q) = p :: r := by
      rw [hpred]
      exact hdrop
    have hacc : inBounds low high (g p.1 p.2).scaleFactor = true := by
      have h1 := dropWhile_head_false hdrop
      simpa using h1
    have h := processPair_success_char low high (fun i j => some (g i j))
      (tresholdRange bRef s m) (tresholdRange bTgt s m) h0 p r (g p.1 p.2) hdrop' rfl hacc
    rw [hpred] at h
    exact h

/-- Witness for `first_fit`: with boundaries `[0.95, 1.05]` and an oracle
whose scale factor is 2 at cell `(0,0)` and 1 elsewhere, over the ranges
generated by `b = 100`, `s = 2`, `m = 4`. -/
theorem first_fit_witness :
    (0 : ℚ) ≤ 0.95 ∧
    (((processPair 0.95 1.05 (fun i j => some (acceptSecond i j))
        (tresholdRange 100 2 4) (tresholdRange 100 2 4)).attempts =
      (gridOf (tresholdRange 100 2 4) (tresholdRange 100 2 4)).takeWhile
          (fun q => ! inBounds 0.95 1.05 (acceptSecond q.1 q.2).scaleFactor) ++
        ((gridOf (tresholdRange 100 2 4) (tresholdRange 100 2 4)).dropWhile
          (fun q => ! inBounds 0.95 1.05 (acceptSecond q.1 q.2).scaleFactor)).take 1) ∧
    ∀ p r,
      (gridOf (tresholdRange 100 2 4) (tresholdRange 100 2 4)).dropWhile
        (fun q => ! inBounds 0.95 1.05 (acceptSecond q.1 q.2).scaleFactor) = p :: r →
      processPair 0.95 1.05 (fun i j => some (acceptSecond i j))
          (tresholdRange 100 2 4) (tresholdRange 100 2 4) =
        .success (acceptSecond p.1 p.2) p
          ((gridOf (tresholdRange 100 2 4) (tresholdRange 100 2 4)).takeWhile
            (fun q => ! inBounds 0.95 1.05 (acceptSecond q.1 q.2).scaleFactor) ++ [p])) :=
  ⟨by norm_num, first_fit 100 100 2 4 0.95 1.05 acceptSecond (by norm_num)⟩

/-! ## C2: what an estimation failure does to the search -/

/-- C2 counterexample: with boundaries `[0.95, 1.05]`, one reference offset
`0` and target offsets `[0, 2]`, an oracle that raises at `(0, 0)` and
returns the acceptable scale factor 1 at every other cell: the code's search
stops at the failing cell — the next grid offset `(0, 2)` is never attempted
(the pair ends in the error outcome), even though its estimate would have
been accepted.  The claim that the failure merely causes the search to try
the next grid offset of the same pair is therefore false on the code. -/
theorem estimation_failure_not_local :
    processPair 0 2 failAtOrigin [0] [0, 2] = .error [(0, 0)] ∧
    failAtOrigin 0 2 = some ⟨1, 0, 0, 0⟩ ∧
    inBounds 0 2 (1 : ℚ) = true ∧
    ((0 : Int), (2 : Int)) ∉ (processPair 0 2 failAtOrigin [0] [0, 2]).attempts := by
  refine ⟨by decide, by decide, by decide, by decide⟩

/-- C2 amended: an estimation failure at a threshold pair is an exception
that is caught at the image-pair boundary: the batch does not crash — the
per-file step logs an error record and returns normally so that processing
continues with the next reference file — but the failure terminates the
search over the remaining grid offsets of that pair: the attempted cells end
at the failing cell and no later offset is tried. -/
theorem estimation_failure_aborts_pair (low high : ℚ) (f : Int → Int → Option AlignOut)
    (refRange tgtRange : List Int) (hlow : 0 ≤ low) (p : Cell) (r : List Cell)
    (hdrop : (gridOf refRange tgtRange).dropWhile (fun q => ! cellStops low high f q) = p :: r)
    (hfail : f p.1 p.2 = none) :
    processPair low high f refRange tgtRange =
      .error ((gridOf refRange tgtRange).takeWhile (fun q => ! cellStops low high f q) ++ [p]) ∧
    ∀ (total : Nat) (bRef bTgt : Int) (suppress : Bool) (st : LoopState) (name : String),
      fileStep total low high f refRange tgtRange bRef bTgt suppress st (name, true) =
        { st with
          fileNumber := st.fileNumber + 1
          log := st.log ++ [.errorAligning name]
          attempted := st.attempted ++
            ((gridOf refRange tgtRange).takeWhile (fun q => ! cellStops low high f q) ++ [p]) } := by
  have h1 := processPair_error_char low high f refRange tgtRange
    (inBounds_neg_one hlow) p r hdrop hfail
  refine ⟨h1, ?_⟩
  intro total bRef bTgt suppress st name
  simp [fileStep, h1]

/-- Witness for `estimation_failure_aborts_pair` at the concrete inputs of
the counterexample. -/
theorem estimation_failure_aborts_pair_witness :
    (0 : ℚ) ≤ 0 ∧
    (gridOf [0] [0, 2]).dropWhile (fun q => ! cellStops 0 2 failAtOrigin q) =
      ((0 : Int), (0 : Int)) :: [((0 : Int), (2 : Int))] ∧
    failAtOrigin 0 0 = none ∧
    (processPair 0 2 failAtOrigin [0] [0, 2] =
      .error ((gridOf [0] [0, 2]).takeWhile (fun q => ! cellStops 0 2 failAtOrigin q) ++
        [((0 : Int), (0 : Int))]) ∧
    ∀ (total : Nat) (bRef bTgt : Int) (suppress : Bool) (st : LoopState) (name : String),
      fileStep total 0 2 failAtOrigin [0] [0, 2] bRef bTgt suppress st (name, true) =
        { st with
          fileNumber := st.fileNumber + 1
          log := st.log ++ [.errorAligning name]
          attempted := st.attempted ++
            ((gridOf [0] [0, 2]).takeWhile (fun q => ! cellStops 0 2 failAtOrigin q) ++
              [((0 : Int), (0 : Int))]) }) :=
  ⟨by norm_num, by decide, by decide,
    estimation_failure_aborts_pair 0 2 failAtOrigin [0] [0, 2] (by norm_num)
      ((0 : Int), (0 : Int)) [((0 : Int), (2 : Int))] (by decide) (by decide)⟩

/-! ## C7: truncation policy of the feature matcher -/

theorem floor_nine_tenths (N : ℕ) : ⌊(9 / 10 : ℚ) * N⌋₊ = 9 * N / 10 := by
  rw [show (9 / 10 : ℚ) * N = ((9 * N : ℕ) : ℚ) / ((10 : ℕ) : ℚ) by push_cast; ring]
  rw [Nat.floor_div_nat, Nat.floor_natCast]

theorem ceil_one_tenth (N : ℕ) : ⌈(1 / 10 : ℚ) * N⌉₊ = (N + 9) / 10 := by
  rcases Nat.eq_zero_or_pos N with h | h
  · subst h
    simp
  · have hc : (N + 9) / 10 ≠ 0 := by omega
    rw [show (1 / 10 : ℚ) * N = (N : ℚ) / 10 by ring, Nat.ceil_eq_iff hc]
    have h1 : ((N + 9) / 10 - 1) * 10 < N := by omega
    have h2 : N ≤ (N + 9) / 10 * 10 := by omega
    constructor
    · rw [lt_div_iff (by norm_num : (0 : ℚ) < 10)]
      exact_mod_cast h1
    · rw [div_le_iff (by norm_num : (0 : ℚ) < 10)]
      exact_mod_cast h2

theorem length_sortMatches (ms : List Match) : (sortMatches ms).length = ms.length :=
  List.length_mergeSort ms

theorem sortMatches_pairwise (ms : List Match) :
    (sortMatches ms).Pairwise (fun a b => a.dist ≤ b.dist) := by
  have htrans : ∀ a b c : Match, matchLe a b = true → matchLe b c = true →
      matchLe a c = true := by
    intro a b c hab hbc
    simp only [matchLe, decide_eq_true_eq] at hab hbc ⊢
    exact le_trans hab hbc
  have htotal : ∀ a b : Match, (matchLe a b || matchLe b a) = true := by
    intro a b
    simp only [matchLe, Bool.or_eq_true, decide_eq_true_eq]
    exact le_total a.dist b.dist
  refine (List.sorted_mergeSort htrans htotal ms).imp ?_
  intro a b hab
  simpa [matchLe] using hab

theorem sortAndTruncate_eq_take (ms : List Match) :
    sortAndTruncate ms = (sortMatches ms).take (9 * ms.length / 10) := by
  unfold sortAndTruncate keepBestMatches
  rw [length_sortMatches]

/-- C7: for a raw correspondence set of size `N`, the post-matching step
returns exactly `floor(0.9 * N)` correspondences sorted ascending by
distance, the sorted list splits into the returned part followed by the
discarded part, the discarded entries number `ceil(0.1 * N)` and are the
worst-scoring (largest-distance) ones, and together they are a permutation
of the raw set; the truncation applies unconditionally, with no case split
on how small `N` is. -/
theorem truncation_policy (ms : List Match) :
    (sortAndTruncate ms).length = 9 * ms.length / 10 ∧
    (sortAndTruncate ms).length = ⌊(9 / 10 : ℚ) * ms.length⌋₊ ∧
    (sortAndTruncate ms).Pairwise (fun a b => a.dist ≤ b.dist) ∧
    sortMatches ms = sortAndTruncate ms ++ (sortMatches ms).drop (9 * ms.length / 10) ∧
    ((sortMatches ms).drop (9 * ms.length / 10)).length = ⌈(1 / 10 : ℚ) * ms.length⌉₊ ∧
    (sortAndTruncate ms ++ (sortMatches ms).drop (9 * ms.length / 10)).Perm ms ∧
    ∀ a ∈ sortAndTruncate ms, ∀ b ∈ (sortMatches ms).drop (9 * ms.length / 10),
      a.dist ≤ b.dist := by
  have hdiv : 9 * ms.length / 10 ≤ ms.length := by omega
  have hsplit : sortMatches ms =
      sortAndTruncate ms ++ (sortMatches ms).drop (9 * ms.length / 10) := by
    rw [sortAndTruncate_eq_take, List.take_append_drop]
  have hsorted := sortMatches_pairwise ms
  refine ⟨?_, ?_, ?_, hsplit, ?_, ?_, ?_⟩
  · rw [sortAndTruncate_eq_take, List.length_take, length_sortMatches]
    omega
  · rw [sortAndTruncate_eq_take, List.length_take, length_sortMatches, floor_nine_tenths]
    omega
  · rw [sortAndTruncate_eq_take]
    exact List.Pairwise.sublist (List.take_sublist _ _) hsorted
  · rw [List.length_drop, length_sortMatches, ceil_one_tenth]
    omega
  · rw [← hsplit]
    exact List.mergeSort_perm ms matchLe
  · have h2 := hsplit ▸ hsorted
    exact (List.pairwise_append.mp h2).2.2

/-- Witness for `truncation_policy` at a concrete 3-element match list. -/
theorem truncation_policy_witness :
    (sortAndTruncate msSample).length = 9 * msSample.length / 10 ∧
    (sortAndTruncate msSample).length = ⌊(9 / 10 : ℚ) * msSample.length⌋₊ ∧
    (sortAndTruncate msSample).Pairwise (fun a b => a.dist ≤ b.dist) ∧
    sortMatches msSample =
      sortAndTruncate msSample ++ (sortMatches msSample).drop (9 * msSample.length / 10) ∧
    ((sortMatches msSample).drop (9 * msSample.length / 10)).length =
      ⌈(1 / 10 : ℚ) * msSample.length⌉₊ ∧
    (sortAndTruncate msSample ++
      (sortMatches msSample).drop (9 * msSample.length / 10)).Perm msSample ∧
    ∀ a ∈ sortAndTruncate msSample,
      ∀ b ∈ (sortMatches msSample).drop (9 * msSample.length / 10), a.dist ≤ b.dist :=
  truncation_policy msSample

/-! ## C3: zero-keypoint edge case -/

/-- C3: when either mask yields zero keypoints (hence an empty descriptor
list), the matcher returns the empty correspondence set — a value, not an
error — and the empty set survives the source's sort-and-truncate step and
the keypoint-coordinate extraction, so the similarity estimator reports an
estimation failure (`none`) for that threshold pair. -/
theorem zero_keypoints (kps1 kps2 : List (ℚ × ℚ)) (ds : List Descriptor)
    (fit : List ((ℚ × ℚ) × (ℚ × ℚ)) → RigidTransform) :
    crossMatch [] ds = [] ∧ crossMatch ds [] = [] ∧
    sortAndTruncate (crossMatch [] ds) = [] ∧ sortAndTruncate (crossMatch ds []) = [] ∧
    matchPipeline kps1 kps2 [] ds fit = none ∧
    matchPipeline kps1 kps2 ds [] fit = none := by
  have h2 : crossMatch ds [] = [] := by
    unfold crossMatch
    rw [List.filterMap_eq_nil_iff]
    intro a ha
    rfl
  have h1 : crossMatch [] ds = [] := rfl
  have h3 : sortAndTruncate ([] : List Match) = [] := by
    simp [sortAndTruncate, sortMatches, keepBestMatches]
  refine ⟨h1, h2, by rw [h1, h3], by rw [h2, h3], ?_, ?_⟩
  · unfold matchPipeline
    rw [h1, h3]
    rfl
  · unfold matchPipeline
    rw [h2, h3]
    rfl

/-- Witness for `zero_keypoints` at concrete keypoint/descriptor lists. -/
theorem zero_keypoints_witness :
    crossMatch [] [[true], [false]] = [] ∧ crossMatch [[true], [false]] [] = [] ∧
    sortAndTruncate (crossMatch [] [[true], [false]]) = [] ∧
    sortAndTruncate (crossMatch [[true], [false]] []) = [] ∧
    matchPipeline [(1, 2)] [] [] [[true], [false]] fitSample = none ∧
    matchPipeline [(1, 2)] [] [[true], [false]] [] fitSample = none :=
  zero_keypoints [(1, 2)] [] [[true], [false]] fitSample

/-! ## C9: cross-pair frame property -/

/-- C9: the output-directory string is mutated by the success branch of the
per-file loop (line 286, `outputDirectory += "/"`): after one successfully
aligned pair the configuration value consumed by the following pairs is
`"out/"`, no longer the `"out"` it was at the start of the first pair, so the
state shared across pairs is not limited to the log sink and the progress
counter. -/
theorem outputDirectory_mutated :
    (fileStep 2 0 2 alwaysAccept (tresholdRange 100 2 4) (tresholdRange 100 2 4)
        100 100 true (initialState "out" 2) ("a.png", true)).outputDirectory = "out/" ∧
    (initialState "out" 2).outputDirectory = "out" ∧
    ("out/" : String) ≠ "out" := by
  refine ⟨by decide, rfl, by decide⟩

/-! ## C10: reference files without an identically-named target file -/

theorem fileStep_progress (total : Nat) (low high : ℚ) (f : Int → Int → Option AlignOut)
    (refRange tgtRange : List Int) (bRef bTgt : Int) (suppress : Bool)
    (st : LoopState) (file : String × Bool) :
    ∀ e ∈ (fileStep total low high f refRange tgtRange bRef bTgt suppress st file).progress,
      e ∈ st.progress ∨ e.2.1 = total := by
  intro e he
  by_cases h2 : file.2
  · cases hpp : processPair low high f refRange tgtRange with
    | success out cell as =>
      simp only [fileStep, h2, if_true, hpp] at he
      simp only [List.mem_append, List.mem_singleton] at he
      rcases he with he | rfl
      · exact Or.inl he
      · exact Or.inr rfl
    | unsuccessful as =>
      simp only [fileStep, h2, if_true, hpp] at he
      simp only [List.mem_append, List.mem_singleton] at he
      rcases he with he | rfl
      · exact Or.inl he
      · exact Or.inr rfl
    | error as =>
      simp only [fileStep, h2, if_true, hpp] at he
      exact Or.inl he
  · simp only [fileStep, Bool.not_eq_true] at h2
    simp only [fileStep, h2, Bool.false_eq_true, if_false] at he
    exact Or.inl he

theorem foldl_fileStep_progress (total : Nat) (low high : ℚ) (f : Int → Int → Option AlignOut)
    (refRange tgtRange : List Int) (bRef bTgt : Int) (suppress : Bool) :
    ∀ (fs : List (String × Bool)) (st : LoopState),
      (∀ e ∈ st.progress, e.2.1 = total) →
      ∀ e ∈ (fs.foldl (fileStep total low high f refRange tgtRange bRef bTgt suppress)
          st).progress, e.2.1 = total := by
  intro fs
  induction fs with
  | nil =>
    intro st h
    simpa using h
  | cons a t ih =>
    intro st h
    simp only [List.foldl_cons]
    apply ih
    intro e he
    rcases fileStep_progress total low high f refRange tgtRange bRef bTgt suppress st a e he
      with h1 | h1
    · exact h e h1
    · exact h1

theorem runFiles_progress (low high : ℚ) (f : Int → Int → Option AlignOut)
    (refRange tgtRange : List Int) (bRef bTgt : Int) (suppress : Bool)
    (dir : String) (files : List (String × Bool)) :
    ∀ e ∈ (runFiles low high f refRange tgtRange bRef bTgt suppress dir files).progress,
      e.2.1 = files.length := by
  unfold runFiles
  apply foldl_fileStep_progress
  intro e he
  simp only [initialState, List.mem_singleton] at he
  subst he
  rfl

/-- C10: a reference file with no identically-named target file is skipped
entirely and silently — the per-file step changes nothing but the file
counter: no alignment attempt, no output file, no log record of any kind, and
no progress-bar update mentioning it; yet the file still counts toward the
progress denominator, which is the total number of reference files for every
displayed update. -/
theorem skipped_pair_silent (total : Nat) (low high : ℚ) (f : Int → Int → Option AlignOut)
    (refRange tgtRange : List Int) (bRef bTgt : Int) (suppress : Bool)
    (st : LoopState) (name : String) (dir : String) (files : List (String × Bool)) :
    fileStep total low high f refRange tgtRange bRef bTgt suppress st (name, false) =
      { st with fileNumber := st.fileNumber + 1 } ∧
    ∀ e ∈ (runFiles low high f refRange tgtRange bRef bTgt suppress dir files).progress,
      e.2.1 = files.length :=
  ⟨by simp [fileStep], runFiles_progress low high f refRange tgtRange bRef bTgt suppress
    dir files⟩

/-- Witness for `skipped_pair_silent` at concrete inputs. -/
theorem skipped_pair_silent_witness :
    fileStep 1 0 2 alwaysAccept (tresholdRange 100 2 4) (tresholdRange 100 2 4)
        100 100 true (initialState "out" 1) ("b.png", false) =
      { initialState "out" 1 with fileNumber := (initialState "out" 1).fileNumber + 1 } ∧
    ∀ e ∈ (runFiles 0 2 alwaysAccept (tresholdRange 100 2 4) (tresholdRange 100 2 4)
        100 100 true "out" [("b.png", false)]).progress,
      e.2.1 = [(("b.png" : String), false)].length :=
  skipped_pair_silent 1 0 2 alwaysAccept (tresholdRange 100 2 4) (tresholdRange 100 2 4)
    100 100 true (initialState "out" 1) "b.png" "out" [("b.png", false)]

/-! ## C8: determinism across runs -/

/-- C8 counterexample: two complete runs on identical inputs and
configuration that read different wall-clock times produce different log
content (the start and finish timestamps of lines 250 and 301 are embedded in
it) and even different log-file names (line 190).  Byte-identical log content
across re-runs is therefore false on the code. -/
theorem log_content_differs_across_runs :
    (fullRun cfgSample alwaysAccept [("a", false)] "2023_01_01 00_00_00"
        "2023_01_01 00_00_01").2 ≠
      (fullRun cfgSample alwaysAccept [("a", false)] "2023_01_02 00_00_00"
        "2023_01_02 00_00_01").2 ∧
    logFileName cfgSample "2023_01_01 00_00_00" ≠
      logFileName cfgSample "2023_01_02 00_00_00" := by
  refine ⟨by decide, by decide⟩

/-- C8 amended: on identical inputs and configuration, re-running produces
byte-identical output image files, identical per-pair records and identical
final loop state — the run's file outputs do not depend on the clock — while
the log content (and the log-file name) of the two runs coincide exactly when
their clock readings coincide: the embedded timestamps are the only
difference between the logs of two runs. -/
theorem determinism_modulo_timestamps (cfg : RunConfig) (f : Int → Int → Option AlignOut)
    (files : List (String × Bool)) (t1 t2 t1' t2' : String) :
    (fullRun cfg f files t1 t2).1 = (fullRun cfg f files t1' t2').1 ∧
    ((fullRun cfg f files t1 t2).2 = (fullRun cfg f files t1' t2').2 ↔
      t1 = t1' ∧ t2 = t2') ∧
    (logFileName cfg t1 = logFileName cfg t1' ↔ t1 = t1') := by
  refine ⟨rfl, ?_, ?_⟩
  · constructor
    · intro h
      exact ⟨congrArg LogContent.startTime h, congrArg LogContent.finishTime h⟩
    · rintro ⟨rfl, rfl⟩
      rfl
  · constructor
    · intro h
      have hd := congrArg String.data h
      simp only [String.data_append] at hd
      have h1 := List.append_cancel_left (List.append_cancel_right hd)
      exact String.ext h1
    · rintro rfl
      rfl

/-- Witness for `determinism_modulo_timestamps` at concrete inputs. -/
theorem determinism_modulo_timestamps_witness :
    (fullRun cfgSample alwaysAccept [("a", true)] "t1" "t2").1 =
      (fullRun cfgSample alwaysAccept [("a", true)] "t1" "t2").1 ∧
    ((fullRun cfgSample alwaysAccept [("a", true)] "t1" "t2").2 =
        (fullRun cfgSample alwaysAccept [("a", true)] "t1" "t2").2 ↔
      ("t1" : String) = "t1" ∧ ("t2" : String) = "t2") ∧
    (logFileName cfgSample "t1" = logFileName cfgSample "t1" ↔ ("t1" : String) = "t1") :=
  determinism_modulo_timestamps cfgSample alwaysAccept [("a", true)] "t1" "t2" "t1" "t2"

/-! ## C4: the first attempt of every pair -/

/-- C4 amended: for every base threshold `b ∈ [0, 254]` (what the
counterexample at `b = 255` forces: the ascending half must be nonempty,
i.e. `min(255 - b, m) > 0`), positive step and positive max change, the first
element of the generated offset sequence is 0; consequently, when both base
thresholds satisfy this, the first alignment attempt of every pair uses the
offset pair `(0, 0)` — exactly the user-supplied base thresholds. -/
theorem first_offset_zero (bRef bTgt s m : Int) (hbR : bRef < 255) (hbT : bTgt < 255)
    (hs : 0 < s) (hm : 0 < m) (low high : ℚ) (hlow : 0 ≤ low)
    (f : Int → Int → Option AlignOut) :
    (tresholdRange bRef s m).head? = some 0 ∧
    (tresholdRange bTgt s m).head? = some 0 ∧
    (processPair low high f (tresholdRange bRef s m)
        (tresholdRange bTgt s m)).attempts.head? = some (0, 0) := by
  have h1 := tresholdRange_head hbR hs hm
  have h2 := tresholdRange_head hbT hs hm
  refine ⟨h1, h2, ?_⟩
  rw [processPair_attempts_head low high f (tresholdRange bRef s m) (tresholdRange bTgt s m)
    (inBounds_neg_one hlow), gridOf_head h1 h2]

/-- Witness for `first_offset_zero` at `bRef = bTgt = 100`, `s = 2`, `m = 20`,
boundaries `[0.95, 1.05]`, oracle accepting everywhere. -/
theorem first_offset_zero_witness :
    (100 : Int) < 255 ∧ (0 : Int) < 2 ∧ (0 : Int) < 20 ∧ (0 : ℚ) ≤ 0.95 ∧
    ((tresholdRange 100 2 20).head? = some 0 ∧
      (tresholdRange 100 2 20).head? = some 0 ∧
      (processPair 0.95 1.05 alwaysAccept (tresholdRange 100 2 20)
          (tresholdRange 100 2 20)).attempts.head? = some (0, 0)) :=
  ⟨by decide, by decide, by decide, by norm_num,
    first_offset_zero 100 100 2 20 (by decide) (by decide) (by decide) (by decide)
      0.95 1.05 (by norm_num) alwaysAccept⟩

/-! ## C5: grid bounds invariant -/

/-- C5: for every base threshold `b ∈ [0,255]`, positive step `s` and positive
max change `m`, every offset `o` in the generated threshold-offset sequence
satisfies `0 ≤ b + o ≤ 255`, i.e. every effective threshold attempted by the
search lies within `[0,255]`. -/
theorem grid_bounds (b s m o : Int) (hb0 : 0 ≤ b) (hb : b ≤ 255) (hs : 0 < s) (hm : 0 < m)
    (ho : o ∈ tresholdRange b s m) : 0 ≤ b + o ∧ b + o ≤ 255 := by
  have hminc : tresholdMaxChangeFor b m ≤ 255 - b := min_le_left _ _
  have hmdec : tresholdMaxDecreaseFor b m ≤ b := min_le_left _ _
  rcases List.mem_append.mp ho with h | h
  · rw [mem_pyRange_pos hs] at h
    obtain ⟨k, rfl, hlt⟩ := h
    have hk : 0 ≤ (k : Int) * s := mul_nonneg (Int.natCast_nonneg k) hs.le
    constructor <;> linarith
  · rw [mem_pyRange_neg (show -s < 0 by omega)] at h
    obtain ⟨k, rfl, hgt⟩ := h
    have hk : 0 ≤ (k : Int) * s := mul_nonneg (Int.natCast_nonneg k) hs.le
    have hks : (k : Int) * (-s) = -((k : Int) * s) := by ring
    constructor <;> linarith

/-- Witness for `grid_bounds` at `b = 100`, `s = 2`, `m = 20`, `o = 18`. -/
theorem grid_bounds_witness :
    (0 : Int) ≤ 100 ∧ (100 : Int) ≤ 255 ∧ (0 : Int) < 2 ∧ (0 : Int) < 20 ∧
      (18 : Int) ∈ tresholdRange 100 2 20 ∧ ((0 : Int) ≤ 100 + 18 ∧ 100 + (18 : Int) ≤ 255) :=
  ⟨by decide, by decide, by decide, by decide, by decide,
    grid_bounds 100 2 20 18 (by decide) (by decide) (by decide) (by decide) (by decide)⟩

/-! ## C6: grid generation formula -/

/-- C6: the generated offset sequence consists exactly of the ascending
offsets `0, s, 2s, …` strictly below `min(255 - b, m)` followed by the
descending offsets `-s, -2s, …` strictly above `-min(b, m)` (nonnegative
ascending half first, strictly increasing; negative descending half second,
strictly decreasing); in particular for `b = 100`, `s = 2`, `m = 20` the
sequence is `0, 2, …, 18` followed by `-2, -4, …, -18`. -/
theorem grid_formula (b s m : Int) (hs : 0 < s) :
    (∀ o : Int, o ∈ tresholdRange b s m ↔
        (∃ k : Nat, o = (k : Int) * s ∧ (k : Int) * s < min (255 - b) m) ∨
        (∃ k : Nat, o = -(((k : Int) + 1) * s) ∧ ((k : Int) + 1) * s < min b m)) ∧
    (∃ ascending descending : List Int,
        tresholdRange b s m = ascending ++ descending ∧
        (∀ o ∈ ascending, 0 ≤ o) ∧ ascending.Pairwise (· < ·) ∧
        (∀ o ∈ descending, o < 0) ∧ descending.Pairwise (· > ·)) ∧
    tresholdRange 100 2 20 =
      [0, 2, 4, 6, 8, 10, 12, 14, 16, 18, -2, -4, -6, -8, -10, -12, -14, -16, -18] := by
  have hneg : -s < 0 := by omega
  refine ⟨fun o => ?_, ?_, by decide⟩
  · unfold tresholdRange tresholdMaxChangeFor tresholdMaxDecreaseFor
    rw [List.mem_append, mem_pyRange_pos hs, mem_pyRange_neg hneg]
    constructor
    · rintro (⟨k, rfl, hlt⟩ | ⟨k, rfl, hgt⟩)
      · exact Or.inl ⟨k, by ring, by linarith⟩
      · exact Or.inr ⟨k, by ring, by linarith⟩
    · rintro (⟨k, rfl, hlt⟩ | ⟨k, rfl, hgt⟩)
      · exact Or.inl ⟨k, by ring, by linarith⟩
      · exact Or.inr ⟨k, by ring, by linarith⟩
  · refine ⟨_, _, rfl, ?_, pairwise_lt_pyRange_pos _ _ _ hs, ?_,
      pairwise_gt_pyRange_neg _ _ _ hneg⟩
    · intro o ho
      rw [mem_pyRange_pos hs] at ho
      obtain ⟨k, rfl, -⟩ := ho
      have hk : 0 ≤ (k : Int) * s := mul_nonneg (Int.natCast_nonneg k) hs.le
      linarith
    · intro o ho
      rw [mem_pyRange_neg hneg] at ho
      obtain ⟨k, rfl, -⟩ := ho
      have hk : 0 ≤ (k : Int) * s := mul_nonneg (Int.natCast_nonneg k) hs.le
      have hks : (k : Int) * (-s) = -((k : Int) * s) := by ring
      linarith

/-- Witness for `grid_formula` at `b = 100`, `s = 2`, `m = 20`. -/
theorem grid_formula_witness :
    (0 : Int) < 2 ∧
    ((∀ o : Int, o ∈ tresholdRange 100 2 20 ↔
        (∃ k : Nat, o = (k : Int) * 2 ∧ (k : Int) * 2 < min (255 - 100) 20) ∨
        (∃ k : Nat, o = -(((k : Int) + 1) * 2) ∧ ((k : Int) + 1) * 2 < min 100 20)) ∧
      (∃ ascending descending : List Int,
        tresholdRange 100 2 20 = ascending ++ descending ∧
        (∀ o ∈ ascending, 0 ≤ o) ∧ ascending.Pairwise (· < ·) ∧
        (∀ o ∈ descending, o < 0) ∧ descending.Pairwise (· > ·)) ∧
      tresholdRange 100 2 20 =
        [0, 2, 4, 6, 8, 10, 12, 14, 16, 18, -2, -4, -6, -8, -10, -12, -14, -16, -18]) :=
  ⟨by decide, grid_formula 100 2 20 (by decide)⟩

/-! ## C4: first offset of the generated sequence -/

/-- C4 counterexample: at base threshold `b = 255` (with step 2, max change
20), the ascending half `range(0, min(255-255, 20), 2)` is empty, so the
first generated offset is `-2`, not `0`: the first alignment attempt does
not use the user-supplied base threshold. -/
theorem first_offset_not_base :
    (tresholdRange 255 2 20).head? = some (-2) ∧ (tresholdRange 255 2 20).head? ≠ some 0 := by
  decide

end CrossSectionAligner
